import Mathlib

/-!
Verification development for the Marlin auto-build runner
(`src/runner.ts`).  The change-detection function `shouldBuild` and the
publish function `doBuild` are embedded shallowly: strings are lists of
characters, the external collaborators (the semver library, file
hashing, the build processor, the release API) are parameters, and the
JavaScript exception flow of `shouldBuild` (a `try` block whose `catch`
re-runs a bootstrap loop over the *same* mutable `newBuilds` object) is
made explicit by threading the accumulator through both loops.
-/

namespace MarlinAB

/-- Strings are modelled as lists of characters. -/
abbrev Str := List Char

/-- Coercion from Lean string literals to the model's strings. -/
def str (s : String) : Str := s.data

/-- The two release channels (the `kind` parameter in `runner.ts`). -/
inductive Channel
  | stable
  | nightly
deriving DecidableEq, Repr

/-- The per-channel filename templates of a build definition
(`meta.stable_name` / `meta.nightly_name` in the build schema). -/
structure BuildMeta where
  stable_name : Str
  nightly_name : Str
deriving DecidableEq, Repr

/-- The part of `BuildSchema` that `runner.ts` reads: `active`
(disabled iff strictly equal to `false`), `only` (channel restriction),
`min_version` (optional semver gate, stable only) and the filename
templates. -/
structure BuildSchema where
  active : Option Bool
  only : Option Channel
  min_version : Option Str
  meta : BuildMeta
deriving DecidableEq, Repr

/-- One record of the tracker file `last_<kind>.json`:
`{version, md5, assetId}`; `assetId` may be absent. -/
structure TrackedBuild where
  version : Str
  md5 : Str
  assetId : Option Nat
deriving DecidableEq, Repr

/-- The three classification actions. -/
inductive Action
  | create
  | update
  | ignore
deriving DecidableEq, Repr

/-- One entry of the `newBuilds : BuildDefs` map built by
`shouldBuild`: `{version, md5, build, action, assetId?}`. -/
structure Decision where
  version : Str
  md5 : Str
  build : BuildSchema
  action : Action
  assetId : Option Nat
deriving DecidableEq, Repr

/-- The external `semver` library, abstracted: `valid` is
`semver.valid`, `coerce` is `semver.coerce` (`none` when coercion
fails), `lt` is `semver.lt` applied to a coerced version and the
`min_version` string. -/
structure SemverLib where
  valid : Str → Bool
  coerce : Str → Option Str
  lt : Str → Str → Bool

/-- Lookup in a JavaScript-object-as-association-list
(`trackedBuilds[buildName]`, `newBuilds[buildName]`). -/
def lookup {α : Type} (m : List (Str × α)) (k : Str) : Option α :=
  match m with
  | [] => none
  | (k', v) :: rest => if k' = k then some v else lookup rest k

/-- Assignment `m[k] = v` on a JavaScript object: overwrites in place
when the key exists, appends otherwise (preserving `Object.entries`
insertion order). -/
def upsert {α : Type} (m : List (Str × α)) (k : Str) (v : α) : List (Str × α) :=
  match m with
  | [] => [(k, v)]
  | (k', v') :: rest => if k' = k then (k, v) :: rest else (k', v') :: upsert rest k v

/-- The disabled test of `runner.ts` line 117:
`loadedBuild.active === false || (loadedBuild.only && loadedBuild.only !== kind)`. -/
def isDisabled (b : BuildSchema) (kind : Channel) : Bool :=
  b.active = some false ||
    (match b.only with
     | some o => o ≠ kind
     | none => false)

/-- JavaScript truthiness of `loadedBuild.min_version` (absent and the
empty string are falsy). -/
def minVersionTruthy (b : BuildSchema) : Bool :=
  match b.min_version with
  | some mv => !mv.isEmpty
  | none => false

/-- The stable-channel `min_version` gate (`runner.ts` lines 131-141 and
169-179, identical in both loops).  Returns `.error` for an invalid
`min_version` (the thrown configuration error), `.ok true` when the
coerced latest version is below `min_version` (build skipped with no
entry), `.ok false` otherwise. -/
def versionGate (sv : SemverLib) (latestVersion : Str) (kind : Channel)
    (buildName : Str) (b : BuildSchema) : Except Str Bool :=
  if kind = Channel.stable ∧ minVersionTruthy b then
    if sv.valid (b.min_version.getD []) then
      match sv.coerce latestVersion with
      | some parsedLatest =>
          if sv.lt parsedLatest (b.min_version.getD []) then .ok true else .ok false
      | none => .ok false
    else
      .error (buildName ++ str "->min_version is not a valid semver string")
  else
    .ok false

/-- One iteration of the tracked-builds loop (`runner.ts` lines
112-158).  `md5v` is the digest of the build's file.  Returns
`.error` when the iteration throws: either the configuration error of
the gate, or the `TypeError` from `trackedBuilds[buildName].assetId`
when a disabled build has no tracker record.  Returns `.ok none` when
the build is skipped by the gate, `.ok (some d)` when a decision is
recorded. -/
def classifyTracked (sv : SemverLib) (latestVersion : Str) (kind : Channel)
    (tracked : List (Str × TrackedBuild)) (buildName : Str) (b : BuildSchema)
    (md5v : Str) : Except Str (Option Decision) :=
  if isDisabled b kind then
    match lookup tracked buildName with
    | none => .error (str "TypeError: Cannot read properties of undefined")
    | some t =>
        .ok (some { version := latestVersion, md5 := md5v, build := b,
                    action := Action.ignore, assetId := t.assetId })
  else
    match versionGate sv latestVersion kind buildName b with
    | .error e => .error e
    | .ok true => .ok none
    | .ok false =>
        match lookup tracked buildName with
        | none =>
            .ok (some { version := latestVersion, md5 := md5v, build := b,
                        action := Action.create, assetId := none })
        | some t =>
            if t.version ≠ latestVersion then
              .ok (some { version := latestVersion, md5 := md5v, build := b,
                          action := Action.create, assetId := none })
            else if md5v ≠ t.md5 then
              .ok (some { version := latestVersion, md5 := md5v, build := b,
                          action := Action.update, assetId := t.assetId })
            else
              .ok (some { version := latestVersion, md5 := md5v, build := b,
                          action := Action.ignore, assetId := t.assetId })

/-- One iteration of the bootstrap loop run from the `catch` block
(`runner.ts` lines 162-185): disabled and gated builds are skipped
without an entry, everything else becomes `create` with no asset id. -/
def classifyBootstrap (sv : SemverLib) (latestVersion : Str) (kind : Channel)
    (buildName : Str) (b : BuildSchema) (md5v : Str) : Except Str (Option Decision) :=
  if isDisabled b kind then
    .ok none
  else
    match versionGate sv latestVersion kind buildName b with
    | .error e => .error e
    | .ok true => .ok none
    | .ok false =>
        .ok (some { version := latestVersion, md5 := md5v, build := b,
                    action := Action.create, assetId := none })

/-- Runs a classification loop over the catalog, mutating the shared
`newBuilds` accumulator.  On a thrown error the accumulator built so
far is kept (the JavaScript `newBuilds` object is declared outside the
`try`), which matters when the `catch` block's bootstrap loop re-runs
over the same object. -/
def runLoop (step : Str → BuildSchema → Except Str (Option Decision))
    (builds : List (Str × BuildSchema)) (acc : List (Str × Decision)) :
    List (Str × Decision) × Option Str :=
  match builds with
  | [] => (acc, none)
  | (n, b) :: rest =>
      match step n b with
      | .error e => (acc, some e)
      | .ok none => runLoop step rest acc
      | .ok (some d) => runLoop step rest (upsert acc n d)

/-- `Object.values(newBuilds).every(b => b.action === "ignore")`
(`runner.ts` line 188). -/
def allIgnore (ds : List (Str × Decision)) : Bool :=
  ds.all (fun p => p.2.action = Action.ignore)

/-- One iteration of the tracked loop as a step function (the digest
`md5file n` plays the role of `md5` computed at the top of the loop
body). -/
def trackedStep (sv : SemverLib) (md5file : Str → Str) (latestVersion : Str)
    (kind : Channel) (tracked : List (Str × TrackedBuild)) :
    Str → BuildSchema → Except Str (Option Decision) :=
  fun n b => classifyTracked sv latestVersion kind tracked n b (md5file n)

/-- One iteration of the bootstrap loop as a step function. -/
def bootStep (sv : SemverLib) (md5file : Str → Str) (latestVersion : Str)
    (kind : Channel) : Str → BuildSchema → Except Str (Option Decision) :=
  fun n b => classifyBootstrap sv latestVersion kind n b (md5file n)

/-- The body of the `try` block of `shouldBuild`: loading the tracker
(`require('../last_<kind>.json')`, which throws when `trackerLoad` is
`none`) followed by the tracked classification loop.  The first
component is the `newBuilds` object as left by the block, the second
the thrown error if any. -/
def firstPass (sv : SemverLib) (md5file : Str → Str) (latestVersion : Str)
    (kind : Channel) : Option (List (Str × TrackedBuild)) →
    List (Str × BuildSchema) → List (Str × Decision) × Option Str
  | none, _ => ([], some (str "Cannot find module"))
  | some tracked, loadedBuilds =>
      runLoop (trackedStep sv md5file latestVersion kind tracked) loadedBuilds []

/-- The change detector `shouldBuild` (`runner.ts` lines 103-191).
`md5file` maps a build name to the hex digest of its file (the
composition of `readFile` and the md5 hash); `trackerLoad` is the
result of `require('../last_<kind>.json')`, `none` when that throws.
The `catch` block re-runs the bootstrap loop over the `newBuilds`
object as left by the `try` block; a bootstrap error propagates out.
Result: `.error` when `shouldBuild` rejects, otherwise
`.ok (ignore, newBuilds)`. -/
def shouldBuild (sv : SemverLib) (md5file : Str → Str) (latestVersion : Str)
    (kind : Channel) (trackerLoad : Option (List (Str × TrackedBuild)))
    (loadedBuilds : List (Str × BuildSchema)) :
    Except Str (Bool × List (Str × Decision)) :=
  match firstPass sv md5file latestVersion kind trackerLoad loadedBuilds with
  | (acc, none) => .ok (allIgnore acc, acc)
  | (acc, some _) =>
      match runLoop (bootStep sv md5file latestVersion kind) loadedBuilds acc with
      | (acc2, none) => .ok (allIgnore acc2, acc2)
      | (_, some e) => .error e

/-- JavaScript `String.prototype.replace` with a string pattern:
replaces only the first occurrence of `pat` in `s` (the whole string is
returned unchanged when `pat` does not occur). -/
def replaceFirst : Str → Str → Str → Str
  | [], pat, rep => if pat.isEmpty then rep else []
  | c :: cs, pat, rep =>
      if pat.isPrefixOf (c :: cs) then rep ++ (c :: cs).drop pat.length
      else c :: replaceFirst cs pat rep

/-- The left-brace character, written by its code point. -/
def lbrace : Char := '\x7b'

/-- The `\x7b\x7bmarlin_version\x7d\x7d` placeholder. -/
def marlinVersionPH : Str := str "\x7b\x7bmarlin_version\x7d\x7d"

/-- The `\x7b\x7bcurrent_date\x7d\x7d` placeholder. -/
def currentDatePH : Str := str "\x7b\x7bcurrent_date\x7d\x7d"

/-- The `\x7b\x7btimestamp\x7d\x7d` placeholder. -/
def timestampPH : Str := str "\x7b\x7btimestamp\x7d\x7d"

/-- The `\x7b\x7buid\x7d\x7d` placeholder. -/
def uidPH : Str := str "\x7b\x7buid\x7d\x7d"

/-- The fixed binary-artifact extension `.bin`. -/
def binExt : Str := str ".bin"

/-- `buildDef.build.meta[kind + "_name"]`. -/
def metaName (b : BuildSchema) : Channel → Str
  | Channel.stable => b.meta.stable_name
  | Channel.nightly => b.meta.nightly_name

/-- The four chained `replace` calls of `runner.ts` lines 204-208. -/
def renderCore (template latestVersion currentDate timestamp uid : Str) : Str :=
  replaceFirst (replaceFirst (replaceFirst (replaceFirst template
    marlinVersionPH latestVersion) currentDatePH currentDate)
    timestampPH timestamp) uidPH uid

/-- The filename templating of `runner.ts` lines 204-209: the four
`replace` calls followed by appending `.bin` when the rendered name
does not already end with it. -/
def renderFilename (template latestVersion currentDate timestamp uid : Str) : Str :=
  if binExt.isSuffixOf (renderCore template latestVersion currentDate timestamp uid) then
    renderCore template latestVersion currentDate timestamp uid
  else
    renderCore template latestVersion currentDate timestamp uid ++ binExt

/-- Substring test: does `pat` occur anywhere in the string? -/
def occurs (pat : Str) : Str → Bool
  | [] => pat.isEmpty
  | c :: cs => pat.isPrefixOf (c :: cs) || occurs pat cs

/-- One element of the `assets` array of `doBuild`. -/
structure Asset where
  buildName : Str
  filename : Str
  buildPath : Str
  action : Action
  assetId : Option Nat
deriving DecidableEq, Repr

/-- The observable effects of one `doBuild` call: the asset batch it
assembled, whether `createRelease` was called, which assets were
uploaded, and the tracker contents written to `last_<kind>.json`
(`none` when the file is not rewritten). -/
structure DoBuildEffects where
  assets : List Asset
  releaseCreated : Bool
  uploaded : List Asset
  writtenTracker : Option (List (Str × TrackedBuild))
deriving DecidableEq, Repr

/-- `buildDefs[asset.buildName].assetId = assetId` after an upload. -/
def setAssetId (m : List (Str × Decision)) (k : Str) (id : Nat) :
    List (Str × Decision) :=
  m.map (fun p => if p.1 = k then (p.1, { p.2 with assetId := some id }) else p)

/-- Deleting the transient `build` and `action` fields from every
decision before serialising the tracker (`runner.ts` lines 231-239). -/
def stripDecisions (m : List (Str × Decision)) : List (Str × TrackedBuild) :=
  m.map (fun p => (p.1, { version := p.2.version, md5 := p.2.md5, assetId := p.2.assetId }))

/-- The asset-collection loop at the top of `doBuild` (`runner.ts`
lines 199-213): `ignore` decisions are skipped, a processor returning
no artifact path contributes nothing, otherwise the rendered filename
and the decision's bookkeeping enter the batch. -/
def mkAssets (processBuild : Str → BuildSchema → Channel → Str → Option Str)
    (currentDate timestamp uid : Str) (latestVersion : Str) (kind : Channel)
    (buildDefs : List (Str × Decision)) : List Asset :=
  buildDefs.filterMap (fun p =>
    if p.2.action = Action.ignore then none
    else
      match processBuild p.1 p.2.build kind latestVersion with
      | none => none
      | some buildPath =>
          some { buildName := p.1,
                 filename := renderFilename (metaName p.2.build kind)
                   latestVersion currentDate timestamp uid,
                 buildPath := buildPath, action := p.2.action, assetId := p.2.assetId })

/-- The release publisher `doBuild` (`runner.ts` lines 193-240).
`processBuild` is the external build processor (`none` when it produces
no artifact), `uploadAsset` the external upload call returning the
remote asset id; `currentDate`, `timestamp` and `uid` stand for the
run's date, unix timestamp and random disambiguator (`randomInt`,
drawn afresh per asset in the source; a run-fixed value here). -/
def doBuild (devMode : Bool)
    (processBuild : Str → BuildSchema → Channel → Str → Option Str)
    (uploadAsset : Asset → Nat)
    (currentDate timestamp uid : Str)
    (latestVersion : Str) (kind : Channel)
    (buildDefs : List (Str × Decision)) : DoBuildEffects :=
  if devMode then
    { assets := mkAssets processBuild currentDate timestamp uid latestVersion kind buildDefs,
      releaseCreated := false, uploaded := [], writtenTracker := none }
  else if (mkAssets processBuild currentDate timestamp uid latestVersion kind buildDefs).isEmpty then
    { assets := mkAssets processBuild currentDate timestamp uid latestVersion kind buildDefs,
      releaseCreated := false, uploaded := [], writtenTracker := none }
  else
    { assets := mkAssets processBuild currentDate timestamp uid latestVersion kind buildDefs,
      releaseCreated := true,
      uploaded := mkAssets processBuild currentDate timestamp uid latestVersion kind buildDefs,
      writtenTracker := some (stripDecisions
        ((mkAssets processBuild currentDate timestamp uid latestVersion kind buildDefs).foldl
          (fun m a => setAssetId m a.buildName (uploadAsset a)) buildDefs)) }

/-! ### Concrete fixtures used by counterexamples and witnesses -/

/-- A concrete semver library: `"bad"` is the one invalid string,
coercion keeps the first five characters (so `"2.0.0.4"` coerces to
`"2.0.0"`), and comparison is by length. -/
def svT : SemverLib :=
  { valid := fun mv => mv != str "bad",
    coerce := fun s => some (s.take 5),
    lt := fun p mv => p.length < mv.length }

/-- A concrete digest function assigning every file the digest `"aaaa"`. -/
def md5T : Str → Str := fun _ => str "aaaa"

/-- A concrete latest-version string. -/
def vT : Str := str "2.0.0"

/-- Concrete filename templates. -/
def metaT : BuildMeta :=
  { stable_name := str "s-\x7b\x7bmarlin_version\x7d\x7d",
    nightly_name := str "n-\x7b\x7bmarlin_version\x7d\x7d" }

/-- An active build with no gate. -/
def activeB : BuildSchema :=
  { active := none, only := none, min_version := none, meta := metaT }

/-- A disabled build (`active = false`). -/
def disabledB : BuildSchema :=
  { active := some false, only := none, min_version := none, meta := metaT }

/-- An active build gated by `min_version = "2.1.10"` (under `svT`,
longer than the coerced latest `"2.0.0"`, hence gating applies). -/
def gatedB : BuildSchema :=
  { active := none, only := none, min_version := some (str "2.1.10"), meta := metaT }

/-- An active build whose `min_version` is the invalid string `"bad"`. -/
def badMinB : BuildSchema :=
  { active := none, only := none, min_version := some (str "bad"), meta := metaT }

/-- Whether a `shouldBuild` run rejected (the promise chain would call
`process.exit(1)`). -/
def isError {α : Type} : Except Str α → Bool
  | .error _ => true
  | .ok _ => false

instance {ε α : Type} [DecidableEq ε] [DecidableEq α] :
    DecidableEq (Except ε α) := fun x y =>
  match x, y with
  | .error a, .error b =>
      if h : a = b then isTrue (by rw [h])
      else isFalse (by intro hc; cases hc; exact h rfl)
  | .ok a, .ok b =>
      if h : a = b then isTrue (by rw [h])
      else isFalse (by intro hc; cases hc; exact h rfl)
  | .error _, .ok _ => isFalse (by intro hc; cases hc)
  | .ok _, .error _ => isFalse (by intro hc; cases hc)

/-- The decision produced for the fixture build `"a"` on a bootstrap
run: `create` at `vT` with digest `"aaaa"` and no asset id. -/
def decisionA : Decision :=
  { version := vT, md5 := str "aaaa", build := activeB,
    action := Action.create, assetId := none }

/-- A two-build catalog: `"a"` is active, `"b"` is disabled. -/
def buildsC7 : List (Str × BuildSchema) :=
  [(str "a", activeB), (str "b", disabledB)]

/-- A template holding each placeholder once — except `uid`, which
occurs twice — and no extension. -/
def tmplC8 : Str :=
  str "f-\x7b\x7bmarlin_version\x7d\x7d-\x7b\x7bcurrent_date\x7d\x7d-\x7b\x7btimestamp\x7d\x7d-\x7b\x7buid\x7d\x7d-\x7b\x7buid\x7d\x7d"

/-! ### Association-list lemmas -/

theorem lookup_nil {α : Type} (k : Str) : lookup ([] : List (Str × α)) k = none := rfl

theorem lookup_cons {α : Type} (k₀ : Str) (v₀ : α) (rest : List (Str × α)) (k : Str) :
    lookup ((k₀, v₀) :: rest) k = if k₀ = k then some v₀ else lookup rest k := rfl

theorem upsert_nil {α : Type} (k : Str) (v : α) : upsert [] k v = [(k, v)] := rfl

theorem upsert_cons {α : Type} (k₀ : Str) (v₀ : α) (rest : List (Str × α)) (k : Str) (v : α) :
    upsert ((k₀, v₀) :: rest) k v =
      if k₀ = k then (k, v) :: rest else (k₀, v₀) :: upsert rest k v := rfl

theorem lookup_upsert_self {α : Type} (m : List (Str × α)) (k : Str) (v : α) :
    lookup (upsert m k v) k = some v := by
  induction m with
  | nil => simp [upsert_nil, lookup_cons]
  | cons p rest ih =>
      obtain ⟨k', v'⟩ := p
      rw [upsert_cons]
      by_cases h : k' = k
      · rw [if_pos h, lookup_cons, if_pos rfl]
      · rw [if_neg h, lookup_cons, if_neg h, ih]

theorem lookup_upsert_ne {α : Type} (m : List (Str × α)) (k k' : Str) (v : α)
    (h : k ≠ k') : lookup (upsert m k v) k' = lookup m k' := by
  induction m with
  | nil => rw [upsert_nil, lookup_cons, if_neg h, lookup_nil]
  | cons p rest ih =>
      obtain ⟨k₀, v₀⟩ := p
      rw [upsert_cons]
      by_cases h₀ : k₀ = k
      · subst h₀
        rw [if_pos rfl, lookup_cons, if_neg h, lookup_cons, if_neg h]
      · rw [if_neg h₀, lookup_cons, lookup_cons, ih]

theorem mem_upsert {α : Type} (m : List (Str × α)) (k : Str) (v : α)
    (p : Str × α) (hp : p ∈ upsert m k v) : p ∈ m ∨ p = (k, v) := by
  induction m with
  | nil =>
      rw [upsert_nil] at hp
      right
      simpa using hp
  | cons q rest ih =>
      obtain ⟨k₀, v₀⟩ := q
      rw [upsert_cons] at hp
      by_cases h₀ : k₀ = k
      · rw [if_pos h₀] at hp
        rcases List.mem_cons.1 hp with h | h
        · right; exact h
        · left; exact List.mem_cons_of_mem _ h
      · rw [if_neg h₀] at hp
        rcases List.mem_cons.1 hp with h | h
        · left; exact h ▸ List.mem_cons_self _ _
        · rcases ih h with h' | h'
          · left; exact List.mem_cons_of_mem _ h'
          · right; exact h'

theorem keys_upsert {α : Type} (m : List (Str × α)) (k : Str) (v : α) (n : Str) :
    n ∈ (upsert m k v).map Prod.fst ↔ n ∈ m.map Prod.fst ∨ n = k := by
  induction m with
  | nil => simp [upsert_nil]
  | cons q rest ih =>
      obtain ⟨k₀, v₀⟩ := q
      rw [upsert_cons]
      by_cases h₀ : k₀ = k
      · subst h₀
        rw [if_pos rfl]
        simp only [List.map_cons, List.mem_cons]
        tauto
      · rw [if_neg h₀]
        simp only [List.map_cons, List.mem_cons, ih]
        tauto

theorem keys_upsert_nodup {α : Type} (m : List (Str × α)) (k : Str) (v : α)
    (h : (m.map Prod.fst).Nodup) : ((upsert m k v).map Prod.fst).Nodup := by
  induction m with
  | nil => simp [upsert_nil]
  | cons q rest ih =>
      obtain ⟨k₀, v₀⟩ := q
      simp only [List.map_cons, List.nodup_cons] at h
      rw [upsert_cons]
      by_cases h₀ : k₀ = k
      · subst h₀
        rw [if_pos rfl]
        simp only [List.map_cons, List.nodup_cons]
        exact h
      · rw [if_neg h₀]
        simp only [List.map_cons, List.nodup_cons]
        refine ⟨?_, ih h.2⟩
        intro hmem
        rcases (keys_upsert rest k v k₀).1 hmem with hk | hk
        · exact h.1 hk
        · exact h₀ hk

theorem lookup_eq_none_iff {α : Type} (m : List (Str × α)) (n : Str) :
    lookup m n = none ↔ n ∉ m.map Prod.fst := by
  induction m with
  | nil => simp [lookup_nil]
  | cons q rest ih =>
      obtain ⟨k₀, v₀⟩ := q
      rw [lookup_cons]
      by_cases h₀ : k₀ = n
      · subst h₀
        rw [if_pos rfl]
        constructor
        · intro hcon
          exact absurd hcon (Option.some_ne_none v₀)
        · intro hn
          exact (hn (List.mem_map_of_mem Prod.fst (List.mem_cons_self (k₀, v₀) rest))).elim
      · rw [if_neg h₀]
        simp only [List.map_cons, List.mem_cons, ih]
        constructor
        · intro hn hcon
          rcases hcon with h | h
          · exact h₀ h.symm
          · exact hn h
        · intro hn
          intro hmem
          exact hn (Or.inr hmem)

theorem lookup_stripDecisions (m : List (Str × Decision)) (n : Str) :
    lookup (stripDecisions m) n =
      (lookup m n).map (fun d =>
        ({ version := d.version, md5 := d.md5, assetId := d.assetId } : TrackedBuild)) := by
  induction m with
  | nil => rfl
  | cons q rest ih =>
      obtain ⟨k₀, d₀⟩ := q
      show lookup ((k₀, _) :: stripDecisions rest) n = _
      rw [lookup_cons, lookup_cons]
      by_cases h₀ : k₀ = n
      · rw [if_pos h₀, if_pos h₀]
        rfl
      · rw [if_neg h₀, if_neg h₀, ih]

/-! ### Classification-loop lemmas -/

theorem runLoop_nil (step : Str → BuildSchema → Except Str (Option Decision))
    (acc : List (Str × Decision)) : runLoop step [] acc = (acc, none) := rfl

theorem runLoop_cons (step : Str → BuildSchema → Except Str (Option Decision))
    (n : Str) (b : BuildSchema) (rest : List (Str × BuildSchema))
    (acc : List (Str × Decision)) :
    runLoop step ((n, b) :: rest) acc =
      match step n b with
      | .error e => (acc, some e)
      | .ok none => runLoop step rest acc
      | .ok (some d) => runLoop step rest (upsert acc n d) := rfl

/-- Builds whose name is not in the catalog slice are untouched by the
loop, whether it completes or throws midway. -/
theorem runLoop_frame (step : Str → BuildSchema → Except Str (Option Decision))
    (builds : List (Str × BuildSchema)) (acc : List (Str × Decision)) (n : Str)
    (hn : n ∉ builds.map Prod.fst) :
    lookup (runLoop step builds acc).1 n = lookup acc n := by
  induction builds generalizing acc with
  | nil => rfl
  | cons q rest ih =>
      obtain ⟨n', b'⟩ := q
      simp only [List.map_cons, List.mem_cons] at hn
      push_neg at hn
      cases hst : step n' b' with
      | error e => rw [runLoop_cons, hst]
      | ok od =>
          cases od with
          | none =>
              rw [runLoop_cons, hst]
              exact ih _ hn.2
          | some d =>
              rw [runLoop_cons, hst, ih _ hn.2]
              exact lookup_upsert_ne _ _ _ _ (fun h => hn.1 h.symm)

/-- A build classified `ok none` is never written by the loop, whether
the loop completes or throws midway. -/
theorem runLoop_lookup_of_skip (step : Str → BuildSchema → Except Str (Option Decision))
    (builds : List (Str × BuildSchema)) (acc : List (Str × Decision))
    (n : Str) (b : BuildSchema)
    (hnd : (builds.map Prod.fst).Nodup) (hmem : (n, b) ∈ builds)
    (hstep : step n b = .ok none) :
    lookup (runLoop step builds acc).1 n = lookup acc n := by
  induction builds generalizing acc with
  | nil => cases hmem
  | cons q rest ih =>
      obtain ⟨n', b'⟩ := q
      simp only [List.map_cons, List.nodup_cons] at hnd
      rcases List.mem_cons.1 hmem with heq | hmem'
      · cases heq
        rw [runLoop_cons, hstep]
        exact runLoop_frame step rest acc n hnd.1
      · have hne : n' ≠ n := by
          intro h
          subst h
          exact hnd.1 (List.mem_map_of_mem Prod.fst hmem')
        cases hst : step n' b' with
        | error e => rw [runLoop_cons, hst]
        | ok od =>
            cases od with
            | none =>
                rw [runLoop_cons, hst]
                exact ih _ hnd.2 hmem'
            | some d =>
                rw [runLoop_cons, hst, ih _ hnd.2 hmem']
                exact lookup_upsert_ne _ _ _ _ hne

/-- When the loop completes without throwing, a build classified
`ok (some d)` ends up in the map exactly as `d`. -/
theorem runLoop_lookup_of_write (step : Str → BuildSchema → Except Str (Option Decision))
    (builds : List (Str × BuildSchema)) (acc : List (Str × Decision))
    (n : Str) (b : BuildSchema) (d : Decision)
    (hnd : (builds.map Prod.fst).Nodup) (hmem : (n, b) ∈ builds)
    (hstep : step n b = .ok (some d))
    (hsuc : (runLoop step builds acc).2 = none) :
    lookup (runLoop step builds acc).1 n = some d := by
  induction builds generalizing acc with
  | nil => cases hmem
  | cons q rest ih =>
      obtain ⟨n', b'⟩ := q
      simp only [List.map_cons, List.nodup_cons] at hnd
      rcases List.mem_cons.1 hmem with heq | hmem'
      · cases heq
        rw [runLoop_cons, hstep, runLoop_frame step rest _ n hnd.1]
        exact lookup_upsert_self acc n d
      · cases hst : step n' b' with
        | error e =>
            rw [runLoop_cons, hst] at hsuc
            cases hsuc
        | ok od =>
            cases od with
            | none =>
                rw [runLoop_cons, hst] at hsuc ⊢
                exact ih _ hnd.2 hmem' hsuc
            | some d' =>
                rw [runLoop_cons, hst] at hsuc ⊢
                exact ih _ hnd.2 hmem' hsuc

/-- A loop that completes without throwing never saw a throwing step. -/
theorem runLoop_step_ne_error (step : Str → BuildSchema → Except Str (Option Decision))
    (builds : List (Str × BuildSchema)) (acc : List (Str × Decision))
    (n : Str) (b : BuildSchema)
    (hsuc : (runLoop step builds acc).2 = none) (hmem : (n, b) ∈ builds)
    (e : Str) : step n b ≠ .error e := by
  induction builds generalizing acc with
  | nil => cases hmem
  | cons q rest ih =>
      obtain ⟨n', b'⟩ := q
      cases hst : step n' b' with
      | error e' =>
          rw [runLoop_cons, hst] at hsuc
          cases hsuc
      | ok od =>
          rcases List.mem_cons.1 hmem with heq | hmem'
          · cases heq
            rw [hst]
            intro hcon
            cases hcon
          · cases od with
            | none =>
                rw [runLoop_cons, hst] at hsuc
                exact ih _ hsuc hmem'
            | some d =>
                rw [runLoop_cons, hst] at hsuc
                exact ih _ hsuc hmem'

/-- A single throwing step makes the whole loop end in an error. -/
theorem runLoop_error_of_step (step : Str → BuildSchema → Except Str (Option Decision))
    (builds : List (Str × BuildSchema)) (acc : List (Str × Decision))
    (n : Str) (b : BuildSchema) (e : Str)
    (hmem : (n, b) ∈ builds) (hstep : step n b = .error e) :
    ∃ e', (runLoop step builds acc).2 = some e' := by
  induction builds generalizing acc with
  | nil => cases hmem
  | cons q rest ih =>
      obtain ⟨n', b'⟩ := q
      cases hst : step n' b' with
      | error e' =>
          refine ⟨e', ?_⟩
          rw [runLoop_cons, hst]
      | ok od =>
          rcases List.mem_cons.1 hmem with heq | hmem'
          · cases heq
            rw [hstep] at hst
            cases hst
          · cases od with
            | none =>
                rw [runLoop_cons, hst]
                exact ih _ hmem'
            | some d =>
                rw [runLoop_cons, hst]
                exact ih _ hmem'

/-- Every entry of the final map either was already in the accumulator
or was produced by the step function on a catalog build. -/
theorem runLoop_entries (step : Str → BuildSchema → Except Str (Option Decision))
    (builds : List (Str × BuildSchema)) (acc : List (Str × Decision))
    (P : Str → Decision → Prop)
    (hstep : ∀ n b, (n, b) ∈ builds → ∀ d, step n b = .ok (some d) → P n d)
    (hacc : ∀ p ∈ acc, P p.1 p.2) :
    ∀ p ∈ (runLoop step builds acc).1, P p.1 p.2 := by
  induction builds generalizing acc with
  | nil => exact hacc
  | cons q rest ih =>
      obtain ⟨n', b'⟩ := q
      cases hst : step n' b' with
      | error e =>
          rw [runLoop_cons, hst]
          exact hacc
      | ok od =>
          cases od with
          | none =>
              rw [runLoop_cons, hst]
              exact ih _ (fun n b hm d hd => hstep n b (List.mem_cons_of_mem _ hm) d hd) hacc
          | some d =>
              rw [runLoop_cons, hst]
              refine ih _ (fun n b hm d' hd => hstep n b (List.mem_cons_of_mem _ hm) d' hd) ?_
              intro p hp
              rcases mem_upsert acc n' d p hp with h | h
              · exact hacc p h
              · rw [h]
                exact hstep n' b' (List.mem_cons_self _ _) d hst

/-- The loop preserves key uniqueness of the accumulator. -/
theorem runLoop_keys_nodup (step : Str → BuildSchema → Except Str (Option Decision))
    (builds : List (Str × BuildSchema)) (acc : List (Str × Decision))
    (h : (acc.map Prod.fst).Nodup) :
    (((runLoop step builds acc).1).map Prod.fst).Nodup := by
  induction builds generalizing acc with
  | nil => exact h
  | cons q rest ih =>
      obtain ⟨n', b'⟩ := q
      cases hst : step n' b' with
      | error e =>
          rw [runLoop_cons, hst]
          exact h
      | ok od =>
          cases od with
          | none =>
              rw [runLoop_cons, hst]
              exact ih _ h
          | some d =>
              rw [runLoop_cons, hst]
              exact ih _ (keys_upsert_nodup acc n' d h)

/-- If no step throws, the loop completes without an error. -/
theorem runLoop_success (step : Str → BuildSchema → Except Str (Option Decision))
    (builds : List (Str × BuildSchema)) (acc : List (Str × Decision))
    (h : ∀ n b, (n, b) ∈ builds → ∀ e, step n b ≠ .error e) :
    (runLoop step builds acc).2 = none := by
  induction builds generalizing acc with
  | nil => rfl
  | cons q rest ih =>
      obtain ⟨n', b'⟩ := q
      cases hst : step n' b' with
      | error e =>
          exact absurd hst (h n' b' (List.mem_cons_self _ _) e)
      | ok od =>
          cases od with
          | none =>
              rw [runLoop_cons, hst]
              exact ih _ (fun n b hm e => h n b (List.mem_cons_of_mem _ hm) e)
          | some d =>
              rw [runLoop_cons, hst]
              exact ih _ (fun n b hm e => h n b (List.mem_cons_of_mem _ hm) e)

/-! ### Per-build classification lemmas -/

theorem classifyTracked_disabled_rec (sv : SemverLib) (v : Str) (kind : Channel)
    (tracked : List (Str × TrackedBuild)) (n : Str) (b : BuildSchema) (m : Str)
    (t : TrackedBuild) (hd : isDisabled b kind = true) (ht : lookup tracked n = some t) :
    classifyTracked sv v kind tracked n b m =
      .ok (some { version := v, md5 := m, build := b,
                  action := Action.ignore, assetId := t.assetId }) := by
  unfold classifyTracked
  rw [hd, ht]
  simp

theorem classifyTracked_disabled_norec (sv : SemverLib) (v : Str) (kind : Channel)
    (tracked : List (Str × TrackedBuild)) (n : Str) (b : BuildSchema) (m : Str)
    (hd : isDisabled b kind = true) (ht : lookup tracked n = none) :
    classifyTracked sv v kind tracked n b m =
      .error (str "TypeError: Cannot read properties of undefined") := by
  unfold classifyTracked
  rw [hd, ht]
  simp

theorem classifyTracked_gate_error (sv : SemverLib) (v : Str) (kind : Channel)
    (tracked : List (Str × TrackedBuild)) (n : Str) (b : BuildSchema) (m e : Str)
    (hd : isDisabled b kind = false) (hg : versionGate sv v kind n b = .error e) :
    classifyTracked sv v kind tracked n b m = .error e := by
  unfold classifyTracked
  rw [hd, hg]
  simp

theorem classifyTracked_gate_skip (sv : SemverLib) (v : Str) (kind : Channel)
    (tracked : List (Str × TrackedBuild)) (n : Str) (b : BuildSchema) (m : Str)
    (hd : isDisabled b kind = false) (hg : versionGate sv v kind n b = .ok true) :
    classifyTracked sv v kind tracked n b m = .ok none := by
  unfold classifyTracked
  rw [hd, hg]
  simp

theorem classifyTracked_new (sv : SemverLib) (v : Str) (kind : Channel)
    (tracked : List (Str × TrackedBuild)) (n : Str) (b : BuildSchema) (m : Str)
    (hd : isDisabled b kind = false) (hg : versionGate sv v kind n b = .ok false)
    (ht : lookup tracked n = none) :
    classifyTracked sv v kind tracked n b m =
      .ok (some { version := v, md5 := m, build := b,
                  action := Action.create, assetId := none }) := by
  unfold classifyTracked
  rw [hd, hg, ht]
  simp

theorem classifyTracked_bump (sv : SemverLib) (v : Str) (kind : Channel)
    (tracked : List (Str × TrackedBuild)) (n : Str) (b : BuildSchema) (m : Str)
    (t : TrackedBuild) (hd : isDisabled b kind = false)
    (hg : versionGate sv v kind n b = .ok false) (ht : lookup tracked n = some t)
    (hv : t.version ≠ v) :
    classifyTracked sv v kind tracked n b m =
      .ok (some { version := v, md5 := m, build := b,
                  action := Action.create, assetId := none }) := by
  unfold classifyTracked
  rw [hd, hg, ht]
  simp [hv]

theorem classifyTracked_changed (sv : SemverLib) (v : Str) (kind : Channel)
    (tracked : List (Str × TrackedBuild)) (n : Str) (b : BuildSchema) (m : Str)
    (t : TrackedBuild) (hd : isDisabled b kind = false)
    (hg : versionGate sv v kind n b = .ok false) (ht : lookup tracked n = some t)
    (hv : t.version = v) (hm : m ≠ t.md5) :
    classifyTracked sv v kind tracked n b m =
      .ok (some { version := v, md5 := m, build := b,
                  action := Action.update, assetId := t.assetId }) := by
  unfold classifyTracked
  rw [hd, hg, ht]
  simp [hv, hm]

theorem classifyTracked_same (sv : SemverLib) (v : Str) (kind : Channel)
    (tracked : List (Str × TrackedBuild)) (n : Str) (b : BuildSchema) (m : Str)
    (t : TrackedBuild) (hd : isDisabled b kind = false)
    (hg : versionGate sv v kind n b = .ok false) (ht : lookup tracked n = some t)
    (hv : t.version = v) (hm : m = t.md5) :
    classifyTracked sv v kind tracked n b m =
      .ok (some { version := v, md5 := m, build := b,
                  action := Action.ignore, assetId := t.assetId }) := by
  unfold classifyTracked
  rw [hd, hg, ht]
  simp [hv, hm]

theorem classifyBootstrap_disabled (sv : SemverLib) (v : Str) (kind : Channel)
    (n : Str) (b : BuildSchema) (m : Str) (hd : isDisabled b kind = true) :
    classifyBootstrap sv v kind n b m = .ok none := by
  unfold classifyBootstrap
  rw [hd]
  simp

theorem classifyBootstrap_gate_error (sv : SemverLib) (v : Str) (kind : Channel)
    (n : Str) (b : BuildSchema) (m e : Str) (hd : isDisabled b kind = false)
    (hg : versionGate sv v kind n b = .error e) :
    classifyBootstrap sv v kind n b m = .error e := by
  unfold classifyBootstrap
  rw [hd, hg]
  simp

theorem classifyBootstrap_gate_skip (sv : SemverLib) (v : Str) (kind : Channel)
    (n : Str) (b : BuildSchema) (m : Str) (hd : isDisabled b kind = false)
    (hg : versionGate sv v kind n b = .ok true) :
    classifyBootstrap sv v kind n b m = .ok none := by
  unfold classifyBootstrap
  rw [hd, hg]
  simp

theorem classifyBootstrap_active (sv : SemverLib) (v : Str) (kind : Channel)
    (n : Str) (b : BuildSchema) (m : Str) (hd : isDisabled b kind = false)
    (hg : versionGate sv v kind n b = .ok false) :
    classifyBootstrap sv v kind n b m =
      .ok (some { version := v, md5 := m, build := b,
                  action := Action.create, assetId := none }) := by
  unfold classifyBootstrap
  rw [hd, hg]
  simp

/-- An enabled, non-gated build always receives a decision in the
tracked loop, and the decision always stores the current run's version
and the current digest. -/
theorem classifyTracked_fallthrough (sv : SemverLib) (v : Str) (kind : Channel)
    (tracked : List (Str × TrackedBuild)) (n : Str) (b : BuildSchema) (m : Str)
    (hd : isDisabled b kind = false) (hg : versionGate sv v kind n b = .ok false) :
    ∃ d, classifyTracked sv v kind tracked n b m = .ok (some d) ∧
      d.version = v ∧ d.md5 = m ∧ d.build = b := by
  cases ht : lookup tracked n with
  | none =>
      exact ⟨_, classifyTracked_new sv v kind tracked n b m hd hg ht, rfl, rfl, rfl⟩
  | some t =>
      by_cases hv : t.version = v
      · by_cases hm : m = t.md5
        · exact ⟨_, classifyTracked_same sv v kind tracked n b m t hd hg ht hv hm, rfl, rfl, rfl⟩
        · exact ⟨_, classifyTracked_changed sv v kind tracked n b m t hd hg ht hv hm, rfl, rfl, rfl⟩
      · exact ⟨_, classifyTracked_bump sv v kind tracked n b m t hd hg ht hv, rfl, rfl, rfl⟩

/-! ### `shouldBuild` decomposition lemmas -/

theorem firstPass_none (sv : SemverLib) (md5file : Str → Str) (v : Str)
    (kind : Channel) (builds : List (Str × BuildSchema)) :
    firstPass sv md5file v kind none builds = ([], some (str "Cannot find module")) := rfl

theorem firstPass_some (sv : SemverLib) (md5file : Str → Str) (v : Str)
    (kind : Channel) (tracked : List (Str × TrackedBuild))
    (builds : List (Str × BuildSchema)) :
    firstPass sv md5file v kind (some tracked) builds =
      runLoop (trackedStep sv md5file v kind tracked) builds [] := rfl

theorem shouldBuild_of_firstPass_ok (sv : SemverLib) (md5file : Str → Str) (v : Str)
    (kind : Channel) (tl : Option (List (Str × TrackedBuild)))
    (builds : List (Str × BuildSchema)) (acc : List (Str × Decision))
    (h : firstPass sv md5file v kind tl builds = (acc, none)) :
    shouldBuild sv md5file v kind tl builds = .ok (allIgnore acc, acc) := by
  unfold shouldBuild
  rw [h]

theorem shouldBuild_of_boot_ok (sv : SemverLib) (md5file : Str → Str) (v : Str)
    (kind : Channel) (tl : Option (List (Str × TrackedBuild)))
    (builds : List (Str × BuildSchema)) (acc acc2 : List (Str × Decision)) (e : Str)
    (h1 : firstPass sv md5file v kind tl builds = (acc, some e))
    (h2 : runLoop (bootStep sv md5file v kind) builds acc = (acc2, none)) :
    shouldBuild sv md5file v kind tl builds = .ok (allIgnore acc2, acc2) := by
  unfold shouldBuild
  rw [h1]
  simp only []
  rw [h2]

theorem shouldBuild_of_boot_error (sv : SemverLib) (md5file : Str → Str) (v : Str)
    (kind : Channel) (tl : Option (List (Str × TrackedBuild)))
    (builds : List (Str × BuildSchema)) (acc acc2 : List (Str × Decision)) (e e' : Str)
    (h1 : firstPass sv md5file v kind tl builds = (acc, some e))
    (h2 : runLoop (bootStep sv md5file v kind) builds acc = (acc2, some e')) :
    shouldBuild sv md5file v kind tl builds = .error e' := by
  unfold shouldBuild
  rw [h1]
  simp only []
  rw [h2]

theorem shouldBuild_ok_cases (sv : SemverLib) (md5file : Str → Str) (v : Str)
    (kind : Channel) (tl : Option (List (Str × TrackedBuild)))
    (builds : List (Str × BuildSchema)) (ig : Bool) (m : List (Str × Decision))
    (h : shouldBuild sv md5file v kind tl builds = .ok (ig, m)) :
    ig = allIgnore m ∧
      (firstPass sv md5file v kind tl builds = (m, none) ∨
       ∃ e acc, firstPass sv md5file v kind tl builds = (acc, some e) ∧
         runLoop (bootStep sv md5file v kind) builds acc = (m, none)) := by
  rcases hfp : firstPass sv md5file v kind tl builds with ⟨acc, err⟩
  cases err with
  | none =>
      have hh := shouldBuild_of_firstPass_ok sv md5file v kind tl builds acc hfp
      rw [h] at hh
      simp only [Except.ok.injEq, Prod.mk.injEq] at hh
      obtain ⟨h1, h2⟩ := hh
      subst h2
      exact ⟨h1, Or.inl rfl⟩
  | some e =>
      rcases hbl : runLoop (bootStep sv md5file v kind) builds acc with ⟨acc2, err2⟩
      cases err2 with
      | none =>
          have hh := shouldBuild_of_boot_ok sv md5file v kind tl builds acc acc2 e hfp hbl
          rw [h] at hh
          simp only [Except.ok.injEq, Prod.mk.injEq] at hh
          obtain ⟨h1, h2⟩ := hh
          subst h2
          exact ⟨h1, Or.inr ⟨e, acc, rfl, hbl⟩⟩
      | some e' =>
          have hh := shouldBuild_of_boot_error sv md5file v kind tl builds acc acc2 e e' hfp hbl
          rw [h] at hh
          cases hh

/-! ### String-replacement lemmas -/

theorem replaceFirst_cons (c : Char) (cs pat rep : Str) :
    replaceFirst (c :: cs) pat rep =
      if pat.isPrefixOf (c :: cs) then rep ++ (c :: cs).drop pat.length
      else c :: replaceFirst cs pat rep := rfl

/-- JavaScript `replace` substitutes exactly the occurrence sitting at
the boundary when everything before it is brace-free and the pattern
starts with a left brace. -/
theorem replaceFirst_boundary (a b p' rep : Str)
    (ha : ∀ c ∈ a, c ≠ lbrace) :
    replaceFirst (a ++ (lbrace :: p') ++ b) (lbrace :: p') rep = a ++ rep ++ b := by
  induction a with
  | nil =>
      simp only [List.nil_append]
      rw [List.cons_append, replaceFirst_cons]
      have hpre : (lbrace :: p').isPrefixOf ((lbrace :: p') ++ b) = true := by
        rw [List.isPrefixOf_iff_prefix]
        exact List.prefix_append _ _
      rw [List.cons_append] at hpre
      rw [hpre]
      simp only [if_true]
      have hdrop : ((lbrace :: p') ++ b).drop (lbrace :: p').length = b :=
        List.drop_left _ _
      rw [List.cons_append] at hdrop
      rw [hdrop]
  | cons c a' ih =>
      have hc : c ≠ lbrace := ha c (List.mem_cons_self _ _)
      have hnp : (lbrace :: p').isPrefixOf (c :: (a' ++ (lbrace :: p') ++ b)) = false := by
        show (lbrace == c && p'.isPrefixOf (a' ++ (lbrace :: p') ++ b)) = false
        have : (lbrace == c) = false := beq_eq_false_iff_ne.mpr (fun h => hc h.symm)
        rw [this, Bool.false_and]
      have ha' : ∀ x ∈ a', x ≠ lbrace := fun x hx => ha x (List.mem_cons_of_mem _ hx)
      calc replaceFirst ((c :: a') ++ (lbrace :: p') ++ b) (lbrace :: p') rep
          = replaceFirst (c :: (a' ++ (lbrace :: p') ++ b)) (lbrace :: p') rep := by
            simp only [List.cons_append]
        _ = c :: replaceFirst (a' ++ (lbrace :: p') ++ b) (lbrace :: p') rep := by
            rw [replaceFirst_cons, hnp]
            simp only [Bool.false_eq_true, if_false]
        _ = c :: (a' ++ rep ++ b) := by rw [ih ha']
        _ = (c :: a') ++ rep ++ b := by simp only [List.cons_append]

theorem noBrace_append (xs ys : Str) (hx : ∀ c ∈ xs, c ≠ lbrace)
    (hy : ∀ c ∈ ys, c ≠ lbrace) : ∀ c ∈ xs ++ ys, c ≠ lbrace := by
  intro c hc
  rcases List.mem_append.1 hc with h | h
  · exact hx c h
  · exact hy c h

/-! ### Claims -/

/-- C1 counterexample: a disabled build whose loaded tracker has no
record for it does not get an `ignore` decision — the dereference
`trackedBuilds[buildName].assetId` throws, the run falls into the
bootstrap loop, and the build ends up with no decision at all, so the
claim `classification ... yields a Decision with action ignore ... for
every prior tracking state (including one with no record for that build
name)` fails at this input. -/
theorem C1_counterexample :
    shouldBuild svT md5T vT Channel.nightly (some []) [(str "b", disabledB)] =
        .ok (true, []) ∧
      isDisabled disabledB Channel.nightly = true := ⟨rfl, rfl⟩

/-- C1 (amended): for every disabled or channel-mismatched build, if the
loaded tracker has a record for it and the tracked classification loop
completes without throwing, the decision map holds an `ignore` decision
for it carrying forward the record's `assetId` (and storing the current
run's version and digest). -/
theorem C1_theorem (sv : SemverLib) (md5file : Str → Str) (v : Str) (kind : Channel)
    (tracked : List (Str × TrackedBuild)) (builds : List (Str × BuildSchema))
    (n : Str) (b : BuildSchema) (t : TrackedBuild) (ig : Bool)
    (m : List (Str × Decision))
    (hnd : (builds.map Prod.fst).Nodup) (hmem : (n, b) ∈ builds)
    (hdis : isDisabled b kind = true) (ht : lookup tracked n = some t)
    (hnoerr : (firstPass sv md5file v kind (some tracked) builds).2 = none)
    (hok : shouldBuild sv md5file v kind (some tracked) builds = .ok (ig, m)) :
    lookup m n = some { version := v, md5 := md5file n, build := b,
                        action := Action.ignore, assetId := t.assetId } := by
  rcases hfp : firstPass sv md5file v kind (some tracked) builds with ⟨acc, err⟩
  rw [hfp] at hnoerr
  cases err with
  | some e => cases hnoerr
  | none =>
      have hsb := shouldBuild_of_firstPass_ok sv md5file v kind (some tracked) builds acc hfp
      rw [hok] at hsb
      simp only [Except.ok.injEq, Prod.mk.injEq] at hsb
      obtain ⟨-, h2⟩ := hsb
      subst h2
      rw [firstPass_some] at hfp
      have hstep := classifyTracked_disabled_rec sv v kind tracked n b (md5file n) t hdis ht
      have hres := runLoop_lookup_of_write (trackedStep sv md5file v kind tracked)
        builds [] n b _ hnd hmem hstep (by rw [hfp])
      rw [hfp] at hres
      exact hres

/-- C1 witness: a disabled build with a tracker record `{version
"1.0.0", md5 "zz", assetId 9}` gets an `ignore` decision storing the
current version and digest and carrying `assetId 9`. -/
theorem C1_witness :
    lookup [(str "b", ({ version := vT, md5 := str "aaaa", build := disabledB,
                         action := Action.ignore, assetId := some 9 } : Decision))] (str "b") =
      some { version := vT, md5 := str "aaaa", build := disabledB,
             action := Action.ignore, assetId := some 9 } :=
  C1_theorem svT md5T vT Channel.nightly
    [(str "b", { version := str "1.0.0", md5 := str "zz", assetId := some 9 })]
    [(str "b", disabledB)] (str "b") disabledB
    { version := str "1.0.0", md5 := str "zz", assetId := some 9 }
    true
    [(str "b", { version := vT, md5 := str "aaaa", build := disabledB,
                 action := Action.ignore, assetId := some 9 })]
    (by decide) (by decide) (by decide) (by decide) rfl rfl

/-- C2 counterexample: the tracker loads with a record for `d1` only;
`d1`'s `ignore` decision has already been accumulated when `d2`'s
missing-record dereference throws, and it survives into the result
(the bootstrap loop skips disabled builds, overwriting nothing), so the
claim `all Decisions accumulated so far are discarded` fails at this
input. -/
theorem C2_counterexample :
    shouldBuild svT md5T vT Channel.nightly
        (some [(str "d1", { version := str "1.0.0", md5 := str "zz", assetId := some 7 })])
        [(str "d1", disabledB), (str "d2", disabledB)] =
      .ok (true, [(str "d1", { version := vT, md5 := str "aaaa", build := disabledB,
                               action := Action.ignore, assetId := some 7 })]) := rfl

/-- C2 (amended): when the tracker loads but the tracked loop throws,
the exception is caught and the bootstrap loop re-runs over the same
accumulator; every active, non-gated build then receives `create` with
no `assetId` regardless of its tracker record (decisions already
accumulated for disabled builds are retained, not discarded). -/
theorem C2_theorem (sv : SemverLib) (md5file : Str → Str) (v : Str) (kind : Channel)
    (tracked : List (Str × TrackedBuild)) (builds : List (Str × BuildSchema))
    (n : Str) (b : BuildSchema) (e : Str) (ig : Bool) (m : List (Str × Decision))
    (hnd : (builds.map Prod.fst).Nodup) (hmem : (n, b) ∈ builds)
    (hact : isDisabled b kind = false)
    (hg : versionGate sv v kind n b = .ok false)
    (hfail : (firstPass sv md5file v kind (some tracked) builds).2 = some e)
    (hok : shouldBuild sv md5file v kind (some tracked) builds = .ok (ig, m)) :
    lookup m n = some { version := v, md5 := md5file n, build := b,
                        action := Action.create, assetId := none } := by
  rcases hfp : firstPass sv md5file v kind (some tracked) builds with ⟨acc, err⟩
  rw [hfp] at hfail
  cases err with
  | none => cases hfail
  | some e' =>
      rcases hbl : runLoop (bootStep sv md5file v kind) builds acc with ⟨acc2, err2⟩
      cases err2 with
      | some e2 =>
          have hx := shouldBuild_of_boot_error sv md5file v kind (some tracked)
            builds acc acc2 e' e2 hfp hbl
          rw [hok] at hx
          cases hx
      | none =>
          have hsb := shouldBuild_of_boot_ok sv md5file v kind (some tracked)
            builds acc acc2 e' hfp hbl
          rw [hok] at hsb
          simp only [Except.ok.injEq, Prod.mk.injEq] at hsb
          obtain ⟨-, h2⟩ := hsb
          subst h2
          have hstep := classifyBootstrap_active sv v kind n b (md5file n) hact hg
          have hres := runLoop_lookup_of_write (bootStep sv md5file v kind)
            builds acc n b _ hnd hmem hstep (by rw [hbl])
          rw [hbl] at hres
          exact hres

/-- C2 witness: the tracker loads empty, the disabled build `d` throws,
and the active build `a` is re-classified `create` with no asset id by
the bootstrap loop. -/
theorem C2_witness :
    lookup [(str "a", ({ version := vT, md5 := str "aaaa", build := activeB,
                         action := Action.create, assetId := none } : Decision))] (str "a") =
      some { version := vT, md5 := str "aaaa", build := activeB,
             action := Action.create, assetId := none } :=
  C2_theorem svT md5T vT Channel.nightly []
    [(str "d", disabledB), (str "a", activeB)] (str "a") activeB
    (str "TypeError: Cannot read properties of undefined") false
    [(str "a", { version := vT, md5 := str "aaaa", build := activeB,
                 action := Action.create, assetId := none })]
    (by decide) (by decide) (by decide) (by decide) rfl rfl

/-- C3 counterexample: a version-gated stable build is present in the
catalog but entirely absent from the run's decision map, so the claim
`every build name present in the catalog appears exactly once in that
run's Decision map` fails at this input. -/
theorem C3_counterexample :
    shouldBuild svT md5T vT Channel.stable (some []) [(str "g", gatedB)] =
        .ok (true, []) ∧
      (str "g", gatedB) ∈ [(str "g", gatedB)] :=
  ⟨rfl, List.mem_singleton.mpr rfl⟩

/-- C3 (amended): when the tracker loads and the tracked loop completes
without throwing, the decision map's keys are unique and a catalog
build is absent from it exactly when it is active/channel-matching and
skipped by the stable `min_version` gate; every other catalog build
appears exactly once. -/
theorem C3_theorem (sv : SemverLib) (md5file : Str → Str) (v : Str) (kind : Channel)
    (tracked : List (Str × TrackedBuild)) (builds : List (Str × BuildSchema))
    (n : Str) (b : BuildSchema) (ig : Bool) (m : List (Str × Decision))
    (hnd : (builds.map Prod.fst).Nodup) (hmem : (n, b) ∈ builds)
    (hnoerr : (firstPass sv md5file v kind (some tracked) builds).2 = none)
    (hok : shouldBuild sv md5file v kind (some tracked) builds = .ok (ig, m)) :
    (m.map Prod.fst).Nodup ∧
      (lookup m n = none ↔
        (isDisabled b kind = false ∧ versionGate sv v kind n b = .ok true)) := by
  rcases hfp : firstPass sv md5file v kind (some tracked) builds with ⟨acc, err⟩
  rw [hfp] at hnoerr
  cases err with
  | some e => cases hnoerr
  | none =>
      have hsb := shouldBuild_of_firstPass_ok sv md5file v kind (some tracked) builds acc hfp
      rw [hok] at hsb
      simp only [Except.ok.injEq, Prod.mk.injEq] at hsb
      obtain ⟨-, h2⟩ := hsb
      subst h2
      rw [firstPass_some] at hfp
      have hsuc : (runLoop (trackedStep sv md5file v kind tracked) builds []).2 = none := by
        rw [hfp]
      refine ⟨?_, ?_, ?_⟩
      · have hn := runLoop_keys_nodup (trackedStep sv md5file v kind tracked) builds []
          (by simp)
        rw [hfp] at hn
        exact hn
      · intro hnone
        cases hdd : isDisabled b kind with
        | true =>
            cases ht : lookup tracked n with
            | none =>
                exact absurd
                  (classifyTracked_disabled_norec sv v kind tracked n b (md5file n) hdd ht)
                  (runLoop_step_ne_error _ builds [] n b hsuc hmem _)
            | some t =>
                have hstep := classifyTracked_disabled_rec sv v kind tracked n b
                  (md5file n) t hdd ht
                have hres := runLoop_lookup_of_write (trackedStep sv md5file v kind tracked)
                  builds [] n b _ hnd hmem hstep hsuc
                rw [hfp] at hres
                rw [hres] at hnone
                cases hnone
        | false =>
            cases hgv : versionGate sv v kind n b with
            | error e =>
                exact absurd
                  (classifyTracked_gate_error sv v kind tracked n b (md5file n) e hdd hgv)
                  (runLoop_step_ne_error _ builds [] n b hsuc hmem _)
            | ok bb =>
                cases bb with
                | true => exact ⟨rfl, rfl⟩
                | false =>
                    obtain ⟨d, hstep, -, -, -⟩ :=
                      classifyTracked_fallthrough sv v kind tracked n b (md5file n) hdd hgv
                    have hres := runLoop_lookup_of_write (trackedStep sv md5file v kind tracked)
                      builds [] n b d hnd hmem hstep hsuc
                    rw [hfp] at hres
                    rw [hres] at hnone
                    cases hnone
      · rintro ⟨hdd, hgv⟩
        have hstep := classifyTracked_gate_skip sv v kind tracked n b (md5file n) hdd hgv
        have hres := runLoop_lookup_of_skip (trackedStep sv md5file v kind tracked)
          builds [] n b hnd hmem hstep
        rw [hfp] at hres
        exact hres

/-- C3 witness: with an active build `a` and a gated build `g` on
stable, the decision map holds `a` exactly once and `g` not at all. -/
theorem C3_witness :
    (([(str "a", { version := vT, md5 := str "aaaa", build := activeB,
                   action := Action.create, assetId := none })] :
        List (Str × Decision)).map Prod.fst).Nodup ∧
      (lookup [(str "a", ({ version := vT, md5 := str "aaaa", build := activeB,
                            action := Action.create, assetId := none } : Decision))] (str "g") = none ↔
        (isDisabled gatedB Channel.stable = false ∧
          versionGate svT vT Channel.stable (str "g") gatedB = .ok true)) :=
  C3_theorem svT md5T vT Channel.stable []
    [(str "a", activeB), (str "g", gatedB)] (str "g") gatedB false
    [(str "a", { version := vT, md5 := str "aaaa", build := activeB,
                 action := Action.create, assetId := none })]
    (by decide) (by decide) rfl rfl

/-- C4 counterexample: on the nightly channel an active build with the
syntactically invalid `min_version` `"bad"` does not abort the run —
the gate is only evaluated when `kind === "stable"`, so the build is
classified normally, refuting the claim for the nightly channel. -/
theorem C4_counterexample :
    shouldBuild svT md5T vT Channel.nightly (some []) [(str "x", badMinB)] =
        .ok (false, [(str "x", ({ version := vT, md5 := str "aaaa", build := badMinB,
                                  action := Action.create, assetId := none } : Decision))]) ∧
      svT.valid (str "bad") = false := ⟨rfl, by decide⟩

/-- C4 (amended): on the stable channel, for every latest-version
string and every prior tracking state, if any active, channel-matching
build has a truthy `min_version` that is not a valid semantic version,
classification rejects the whole run with a configuration error; on the
nightly channel the gate is never evaluated. -/
theorem C4_theorem (sv : SemverLib) (md5file : Str → Str) (v : Str)
    (tl : Option (List (Str × TrackedBuild))) (builds : List (Str × BuildSchema))
    (n mv : Str) (b : BuildSchema)
    (hmem : (n, b) ∈ builds) (hact : isDisabled b Channel.stable = false)
    (hmv : b.min_version = some mv) (hne : mv ≠ []) (hval : sv.valid mv = false) :
    isError (shouldBuild sv md5file v Channel.stable tl builds) = true := by
  have htr : minVersionTruthy b = true := by
    unfold minVersionTruthy
    rw [hmv]
    cases mv with
    | nil => exact absurd rfl hne
    | cons c cs => rfl
  have hval2 : sv.valid (b.min_version.getD []) = false := by
    rw [hmv]
    exact hval
  have hg : versionGate sv v Channel.stable n b =
      .error (n ++ str "->min_version is not a valid semver string") := by
    unfold versionGate
    rw [if_pos ⟨rfl, htr⟩, if_neg (by simp [hval2])]
  have hbstep := classifyBootstrap_gate_error sv v Channel.stable n b (md5file n) _ hact hg
  rcases hfp : firstPass sv md5file v Channel.stable tl builds with ⟨acc, err⟩
  obtain ⟨e2, he2⟩ := runLoop_error_of_step (bootStep sv md5file v Channel.stable)
    builds acc n b _ hmem hbstep
  rcases hbl : runLoop (bootStep sv md5file v Channel.stable) builds acc with ⟨acc2, err2⟩
  rw [hbl] at he2
  cases err2 with
  | none => cases he2
  | some e2' =>
      cases err with
      | some e1 =>
          rw [shouldBuild_of_boot_error sv md5file v Channel.stable tl builds acc acc2
            e1 e2' hfp hbl]
          rfl
      | none =>
          cases tl with
          | none =>
              rw [firstPass_none] at hfp
              simp at hfp
          | some tracked =>
              rw [firstPass_some] at hfp
              have hsuc : (runLoop (trackedStep sv md5file v Channel.stable tracked)
                  builds []).2 = none := by
                rw [hfp]
              exact absurd
                (classifyTracked_gate_error sv v Channel.stable tracked n b (md5file n)
                  _ hact hg)
                (runLoop_step_ne_error _ builds [] n b hsuc hmem _)

/-- C4 witness: on stable, the single active build `x` with
`min_version = "bad"` makes `shouldBuild` reject. -/
theorem C4_witness :
    isError (shouldBuild svT md5T vT Channel.stable (some []) [(str "x", badMinB)]) = true :=
  C4_theorem svT md5T vT (some []) [(str "x", badMinB)] (str "x") (str "bad") badMinB
    (by decide) (by decide) (by decide) (by decide) (by decide)

/-- C5: an active stable build with a truthy, valid `min_version`, where
the coerced latest version is strictly below it, is entirely absent
from any decision map `shouldBuild` returns — for every prior tracking
state, including the bootstrap path. -/
theorem C5_theorem (sv : SemverLib) (md5file : Str → Str) (v : Str)
    (tl : Option (List (Str × TrackedBuild))) (builds : List (Str × BuildSchema))
    (n mv p : Str) (b : BuildSchema) (ig : Bool) (m : List (Str × Decision))
    (hnd : (builds.map Prod.fst).Nodup) (hmem : (n, b) ∈ builds)
    (hact : isDisabled b Channel.stable = false)
    (hmv : b.min_version = some mv) (hne : mv ≠ [])
    (hval : sv.valid mv = true)
    (hcp : sv.coerce v = some p) (hlt : sv.lt p mv = true)
    (hok : shouldBuild sv md5file v Channel.stable tl builds = .ok (ig, m)) :
    lookup m n = none := by
  have htr : minVersionTruthy b = true := by
    unfold minVersionTruthy
    rw [hmv]
    cases mv with
    | nil => exact absurd rfl hne
    | cons c cs => rfl
  have hval2 : sv.valid (b.min_version.getD []) = true := by
    rw [hmv]
    exact hval
  have hlt2 : sv.lt p (b.min_version.getD []) = true := by
    rw [hmv]
    exact hlt
  have hg : versionGate sv v Channel.stable n b = .ok true := by
    unfold versionGate
    rw [if_pos ⟨rfl, htr⟩, if_pos hval2, hcp]
    simp only [hlt2, if_true]
  obtain ⟨-, hcases⟩ := shouldBuild_ok_cases sv md5file v Channel.stable tl builds ig m hok
  rcases hcases with hfp | ⟨e, acc, hfp, hbl⟩
  · cases tl with
    | none =>
        rw [firstPass_none] at hfp
        simp at hfp
    | some tracked =>
        rw [firstPass_some] at hfp
        have hstep := classifyTracked_gate_skip sv v Channel.stable tracked n b
          (md5file n) hact hg
        have hres := runLoop_lookup_of_skip (trackedStep sv md5file v Channel.stable tracked)
          builds [] n b hnd hmem hstep
        rw [hfp] at hres
        exact hres
  · have hstep2 := classifyBootstrap_gate_skip sv v Channel.stable n b (md5file n) hact hg
    have hres2 := runLoop_lookup_of_skip (bootStep sv md5file v Channel.stable)
      builds acc n b hnd hmem hstep2
    rw [hbl] at hres2
    have haccn : lookup acc n = none := by
      cases tl with
      | none =>
          rw [firstPass_none] at hfp
          simp only [Prod.mk.injEq] at hfp
          obtain ⟨h1, -⟩ := hfp
          rw [← h1]
          rfl
      | some tracked =>
          rw [firstPass_some] at hfp
          have hstep := classifyTracked_gate_skip sv v Channel.stable tracked n b
            (md5file n) hact hg
          have hres := runLoop_lookup_of_skip (trackedStep sv md5file v Channel.stable tracked)
            builds [] n b hnd hmem hstep
          rw [hfp] at hres
          exact hres
    rw [hres2, haccn]

/-- C5 witness: `min_version = "2.1.10"` with coerced latest `"2.0.0"`
below it leaves the build `g` without any decision entry. -/
theorem C5_witness :
    lookup ([] : List (Str × Decision)) (str "g") = none :=
  C5_theorem svT md5T vT (some []) [(str "g", gatedB)] (str "g") (str "2.1.10")
    (str "2.0.0") gatedB true []
    (by decide) (by decide) (by decide) (by decide) (by decide) (by decide)
    (by decide) (by decide) rfl

/-- C6: a build with a tracker record whose version differs from the
current `latestVersion` is classified `create` with no `assetId`,
whatever its content digest, whenever the tracked loop completes. -/
theorem C6_theorem (sv : SemverLib) (md5file : Str → Str) (v : Str) (kind : Channel)
    (tracked : List (Str × TrackedBuild)) (builds : List (Str × BuildSchema))
    (n : Str) (b : BuildSchema) (t : TrackedBuild) (ig : Bool)
    (m : List (Str × Decision))
    (hnd : (builds.map Prod.fst).Nodup) (hmem : (n, b) ∈ builds)
    (hact : isDisabled b kind = false)
    (hg : versionGate sv v kind n b = .ok false)
    (ht : lookup tracked n = some t) (hv : t.version ≠ v)
    (hnoerr : (firstPass sv md5file v kind (some tracked) builds).2 = none)
    (hok : shouldBuild sv md5file v kind (some tracked) builds = .ok (ig, m)) :
    lookup m n = some { version := v, md5 := md5file n, build := b,
                        action := Action.create, assetId := none } := by
  rcases hfp : firstPass sv md5file v kind (some tracked) builds with ⟨acc, err⟩
  rw [hfp] at hnoerr
  cases err with
  | some e => cases hnoerr
  | none =>
      have hsb := shouldBuild_of_firstPass_ok sv md5file v kind (some tracked) builds acc hfp
      rw [hok] at hsb
      simp only [Except.ok.injEq, Prod.mk.injEq] at hsb
      obtain ⟨-, h2⟩ := hsb
      subst h2
      rw [firstPass_some] at hfp
      have hstep := classifyTracked_bump sv v kind tracked n b (md5file n) t hact hg ht hv
      have hres := runLoop_lookup_of_write (trackedStep sv md5file v kind tracked)
        builds [] n b _ hnd hmem hstep (by rw [hfp])
      rw [hfp] at hres
      exact hres

/-- C6 witness: build `a` tracked at version `"1.0.0"` with an
unchanged digest is re-classified `create` with no asset id at latest
version `"2.0.0"`. -/
theorem C6_witness :
    lookup [(str "a", ({ version := vT, md5 := str "aaaa", build := activeB,
                         action := Action.create, assetId := none } : Decision))] (str "a") =
      some { version := vT, md5 := str "aaaa", build := activeB,
             action := Action.create, assetId := none } :=
  C6_theorem svT md5T vT Channel.nightly
    [(str "a", { version := str "1.0.0", md5 := str "aaaa", assetId := some 5 })]
    [(str "a", activeB)] (str "a") activeB
    { version := str "1.0.0", md5 := str "aaaa", assetId := some 5 }
    false
    [(str "a", { version := vT, md5 := str "aaaa", build := activeB,
                 action := Action.create, assetId := none })]
    (by decide) (by decide) (by decide) (by decide) (by decide) (by decide) rfl rfl

/-- C7 counterexample: catalog `{a: active, b: disabled}` with no prior
tracker.  The first run bootstraps and records only `a`; feeding the
resulting tracking state into a second identical run makes `b`'s
missing-record dereference throw, so the second run also bootstraps and
classifies `a` as `create` — not `ignore` — refuting idempotence as
claimed. -/
theorem C7_counterexample :
    shouldBuild svT md5T vT Channel.nightly none buildsC7 =
        .ok (false, [(str "a", decisionA)]) ∧
      shouldBuild svT md5T vT Channel.nightly
          (some (stripDecisions [(str "a", decisionA)])) buildsC7 =
        .ok (false, [(str "a", decisionA)]) ∧
      decisionA.action ≠ Action.ignore :=
  ⟨rfl, rfl, by decide⟩

/-- C7 (amended): classification is idempotent provided every disabled
or channel-mismatched catalog build already has an entry in the first
run's decision map: a second run with the same catalog, digests and
latest version over the tracking state produced from the first run's
map reports all-ignored and classifies every build in its map
`ignore`.  (Without that proviso the missing-record exception reroutes
the second run to bootstrap, which re-classifies active builds as
`create`.) -/
theorem C7_theorem (sv : SemverLib) (md5file : Str → Str) (v : Str) (kind : Channel)
    (tl : Option (List (Str × TrackedBuild))) (builds : List (Str × BuildSchema))
    (ig1 ig2 : Bool) (m1 m2 : List (Str × Decision))
    (hnd : (builds.map Prod.fst).Nodup)
    (hrun1 : shouldBuild sv md5file v kind tl builds = .ok (ig1, m1))
    (hdisrec : ∀ n b, (n, b) ∈ builds → isDisabled b kind = true →
      ∃ d1, lookup m1 n = some d1)
    (hrun2 : shouldBuild sv md5file v kind (some (stripDecisions m1)) builds =
      .ok (ig2, m2)) :
    ig2 = true ∧ allIgnore m2 = true := by
  obtain ⟨-, hc1⟩ := shouldBuild_ok_cases sv md5file v kind tl builds ig1 m1 hrun1
  have hGP : ∀ n b, (n, b) ∈ builds → isDisabled b kind = false →
      (∀ e, versionGate sv v kind n b ≠ .error e) ∧
      (versionGate sv v kind n b = .ok false →
        ∃ d1, lookup m1 n = some d1 ∧ d1.version = v ∧ d1.md5 = md5file n) := by
    rcases hc1 with hfp1 | ⟨e, acc, hfp1, hbl1⟩
    · cases tl with
      | none =>
          rw [firstPass_none] at hfp1
          simp at hfp1
      | some tracked =>
          rw [firstPass_some] at hfp1
          have hsuc1 : (runLoop (trackedStep sv md5file v kind tracked) builds []).2 =
              none := by
            rw [hfp1]
          intro n b hm hd
          constructor
          · intro e hcon
            exact absurd
              (classifyTracked_gate_error sv v kind tracked n b (md5file n) e hd hcon)
              (runLoop_step_ne_error _ builds [] n b hsuc1 hm _)
          · intro hg
            obtain ⟨d, hstep, hver, hmd, -⟩ :=
              classifyTracked_fallthrough sv v kind tracked n b (md5file n) hd hg
            have hres := runLoop_lookup_of_write (trackedStep sv md5file v kind tracked)
              builds [] n b d hnd hm hstep hsuc1
            rw [hfp1] at hres
            exact ⟨d, hres, hver, hmd⟩
    · have hsuc1b : (runLoop (bootStep sv md5file v kind) builds acc).2 = none := by
        rw [hbl1]
      intro n b hm hd
      constructor
      · intro e' hcon
        exact absurd
          (classifyBootstrap_gate_error sv v kind n b (md5file n) e' hd hcon)
          (runLoop_step_ne_error _ builds acc n b hsuc1b hm _)
      · intro hg
        have hstep := classifyBootstrap_active sv v kind n b (md5file n) hd hg
        have hres := runLoop_lookup_of_write (bootStep sv md5file v kind)
          builds acc n b _ hnd hm hstep hsuc1b
        rw [hbl1] at hres
        exact ⟨_, hres, rfl, rfl⟩
  have hstep2all : ∀ n b, (n, b) ∈ builds →
      (∀ e, classifyTracked sv v kind (stripDecisions m1) n b (md5file n) ≠ .error e) ∧
      (∀ d, classifyTracked sv v kind (stripDecisions m1) n b (md5file n) =
          .ok (some d) → d.action = Action.ignore) := by
    intro n b hm
    cases hd : isDisabled b kind with
    | true =>
        obtain ⟨d1, hd1⟩ := hdisrec n b hm hd
        have ht : lookup (stripDecisions m1) n =
            some { version := d1.version, md5 := d1.md5, assetId := d1.assetId } := by
          rw [lookup_stripDecisions, hd1]
          rfl
        have hstep := classifyTracked_disabled_rec sv v kind (stripDecisions m1) n b
          (md5file n) _ hd ht
        constructor
        · intro e hcon
          rw [hstep] at hcon
          cases hcon
        · intro d hdd
          rw [hstep] at hdd
          simp only [Except.ok.injEq, Option.some.injEq] at hdd
          rw [← hdd]
    | false =>
        obtain ⟨hGn, hPn⟩ := hGP n b hm hd
        cases hgv : versionGate sv v kind n b with
        | error e => exact (hGn e hgv).elim
        | ok bb =>
            cases bb with
            | true =>
                have hstep := classifyTracked_gate_skip sv v kind (stripDecisions m1) n b
                  (md5file n) hd hgv
                constructor
                · intro e hcon
                  rw [hstep] at hcon
                  cases hcon
                · intro d hdd
                  rw [hstep] at hdd
                  cases hdd
            | false =>
                obtain ⟨d1, hd1, hver, hmd⟩ := hPn hgv
                have ht : lookup (stripDecisions m1) n =
                    some { version := d1.version, md5 := d1.md5, assetId := d1.assetId } := by
                  rw [lookup_stripDecisions, hd1]
                  rfl
                have hstep := classifyTracked_same sv v kind (stripDecisions m1) n b
                  (md5file n) _ hd hgv ht hver hmd.symm
                constructor
                · intro e hcon
                  rw [hstep] at hcon
                  cases hcon
                · intro d hdd
                  rw [hstep] at hdd
                  simp only [Except.ok.injEq, Option.some.injEq] at hdd
                  rw [← hdd]
  obtain ⟨hig2, hc2⟩ := shouldBuild_ok_cases sv md5file v kind
    (some (stripDecisions m1)) builds ig2 m2 hrun2
  have hsuc2 : (runLoop (trackedStep sv md5file v kind (stripDecisions m1))
      builds []).2 = none :=
    runLoop_success _ builds [] (fun n b hm e => (hstep2all n b hm).1 e)
  rcases hc2 with hfp2 | ⟨e, acc, hfp2, hbl2⟩
  · rw [firstPass_some] at hfp2
    have hall : ∀ p ∈ m2, p.2.action = Action.ignore := by
      have hent := runLoop_entries (trackedStep sv md5file v kind (stripDecisions m1))
        builds [] (fun n d => d.action = Action.ignore)
        (fun n b hm d hdd => (hstep2all n b hm).2 d hdd)
        (by intro p hp; cases hp)
      rw [hfp2] at hent
      exact hent
    have hai : allIgnore m2 = true := by
      unfold allIgnore
      rw [List.all_eq_true]
      intro p hp
      simpa using hall p hp
    refine ⟨?_, hai⟩
    rw [hig2]
    exact hai
  · rw [firstPass_some] at hfp2
    rw [hfp2] at hsuc2
    cases hsuc2

/-- C7 witness: one active build, first run bootstrapped; the second
run over the produced tracking state reports all-ignored and holds only
an `ignore` decision. -/
theorem C7_witness :
    (true : Bool) = true ∧
      allIgnore [(str "a", ({ version := vT, md5 := str "aaaa", build := activeB,
                              action := Action.ignore, assetId := none } : Decision))] =
        true :=
  C7_theorem svT md5T vT Channel.nightly none [(str "a", activeB)] false true
    [(str "a", decisionA)]
    [(str "a", { version := vT, md5 := str "aaaa", build := activeB,
                 action := Action.ignore, assetId := none })]
    (by decide) rfl
    (by
      intro n b hm hd
      simp only [List.mem_singleton, Prod.mk.injEq] at hm
      obtain ⟨-, rfl⟩ := hm
      exact absurd hd (by decide))
    rfl

/-- C8 counterexample: a template containing every placeholder and no
extension, but with `uid` occurring twice, renders with the second
`uid` occurrence left unsubstituted — JavaScript `replace` with a
string pattern only replaces the first occurrence — so the claim that
`every occurrence of every placeholder` is substituted fails at this
input. -/
theorem C8_counterexample :
    occurs marlinVersionPH tmplC8 = true ∧ occurs currentDatePH tmplC8 = true ∧
      occurs timestampPH tmplC8 = true ∧ occurs uidPH tmplC8 = true ∧
      binExt.isSuffixOf tmplC8 = false ∧
      occurs uidPH (renderFilename tmplC8 vT (str "20261011") (str "175")
        (str "123456")) = true :=
  ⟨rfl, rfl, rfl, rfl, rfl, rfl⟩

/-- C8 (amended): for a template made of brace-free literal segments
holding each placeholder exactly once, in substitution order, with
brace-free substitution values and producing no `.bin` ending of its
own, rendering substitutes the (single) occurrence of every placeholder
and appends the fixed `.bin` extension, with which the result ends. -/
theorem C8_theorem (s1 s2 s3 s4 s5 ver date ts uid : Str)
    (h1 : ∀ c ∈ s1, c ≠ lbrace) (h2 : ∀ c ∈ s2, c ≠ lbrace)
    (h3 : ∀ c ∈ s3, c ≠ lbrace) (h4 : ∀ c ∈ s4, c ≠ lbrace)
    (h5 : ∀ c ∈ s5, c ≠ lbrace)
    (hv : ∀ c ∈ ver, c ≠ lbrace) (hd : ∀ c ∈ date, c ≠ lbrace)
    (hts : ∀ c ∈ ts, c ≠ lbrace) (hu : ∀ c ∈ uid, c ≠ lbrace)
    (hnb : binExt.isSuffixOf
      (s1 ++ ver ++ s2 ++ date ++ s3 ++ ts ++ s4 ++ uid ++ s5) = false) :
    renderFilename (s1 ++ marlinVersionPH ++ (s2 ++ currentDatePH ++
        (s3 ++ timestampPH ++ (s4 ++ uidPH ++ s5)))) ver date ts uid =
      s1 ++ ver ++ s2 ++ date ++ s3 ++ ts ++ s4 ++ uid ++ s5 ++ binExt ∧
    binExt.isSuffixOf (renderFilename (s1 ++ marlinVersionPH ++ (s2 ++ currentDatePH ++
        (s3 ++ timestampPH ++ (s4 ++ uidPH ++ s5)))) ver date ts uid) = true := by
  have e1 : marlinVersionPH = lbrace :: str "\x7bmarlin_version\x7d\x7d" := rfl
  have e2 : currentDatePH = lbrace :: str "\x7bcurrent_date\x7d\x7d" := rfl
  have e3 : timestampPH = lbrace :: str "\x7btimestamp\x7d\x7d" := rfl
  have e4 : uidPH = lbrace :: str "\x7buid\x7d\x7d" := rfl
  have r1 : replaceFirst (s1 ++ marlinVersionPH ++ (s2 ++ currentDatePH ++
      (s3 ++ timestampPH ++ (s4 ++ uidPH ++ s5)))) marlinVersionPH ver =
      s1 ++ ver ++ (s2 ++ currentDatePH ++ (s3 ++ timestampPH ++ (s4 ++ uidPH ++ s5))) := by
    rw [e1]
    exact replaceFirst_boundary s1 _ _ ver h1
  have hA2 : ∀ c ∈ s1 ++ ver ++ s2, c ≠ lbrace :=
    noBrace_append _ _ (noBrace_append _ _ h1 hv) h2
  have r2 : replaceFirst ((s1 ++ ver ++ s2) ++ currentDatePH ++
      (s3 ++ timestampPH ++ (s4 ++ uidPH ++ s5))) currentDatePH date =
      (s1 ++ ver ++ s2) ++ date ++ (s3 ++ timestampPH ++ (s4 ++ uidPH ++ s5)) := by
    rw [e2]
    exact replaceFirst_boundary _ _ _ date hA2
  have hA3 : ∀ c ∈ (s1 ++ ver ++ s2) ++ date ++ s3, c ≠ lbrace :=
    noBrace_append _ _ (noBrace_append _ _ hA2 hd) h3
  have r3 : replaceFirst (((s1 ++ ver ++ s2) ++ date ++ s3) ++ timestampPH ++
      (s4 ++ uidPH ++ s5)) timestampPH ts =
      ((s1 ++ ver ++ s2) ++ date ++ s3) ++ ts ++ (s4 ++ uidPH ++ s5) := by
    rw [e3]
    exact replaceFirst_boundary _ _ _ ts hA3
  have hA4 : ∀ c ∈ (((s1 ++ ver ++ s2) ++ date ++ s3) ++ ts ++ s4), c ≠ lbrace :=
    noBrace_append _ _ (noBrace_append _ _ hA3 hts) h4
  have r4 : replaceFirst ((((s1 ++ ver ++ s2) ++ date ++ s3) ++ ts ++ s4) ++ uidPH ++ s5)
      uidPH uid =
      (((s1 ++ ver ++ s2) ++ date ++ s3) ++ ts ++ s4) ++ uid ++ s5 := by
    rw [e4]
    exact replaceFirst_boundary _ _ _ uid hA4
  have hF : renderCore (s1 ++ marlinVersionPH ++ (s2 ++ currentDatePH ++
      (s3 ++ timestampPH ++ (s4 ++ uidPH ++ s5)))) ver date ts uid =
      s1 ++ ver ++ s2 ++ date ++ s3 ++ ts ++ s4 ++ uid ++ s5 := by
    unfold renderCore
    rw [r1]
    rw [show s1 ++ ver ++ (s2 ++ currentDatePH ++ (s3 ++ timestampPH ++ (s4 ++ uidPH ++ s5))) =
        (s1 ++ ver ++ s2) ++ currentDatePH ++ (s3 ++ timestampPH ++ (s4 ++ uidPH ++ s5)) by
      simp only [List.append_assoc]]
    rw [r2]
    rw [show (s1 ++ ver ++ s2) ++ date ++ (s3 ++ timestampPH ++ (s4 ++ uidPH ++ s5)) =
        ((s1 ++ ver ++ s2) ++ date ++ s3) ++ timestampPH ++ (s4 ++ uidPH ++ s5) by
      simp only [List.append_assoc]]
    rw [r3]
    rw [show ((s1 ++ ver ++ s2) ++ date ++ s3) ++ ts ++ (s4 ++ uidPH ++ s5) =
        (((s1 ++ ver ++ s2) ++ date ++ s3) ++ ts ++ s4) ++ uidPH ++ s5 by
      simp only [List.append_assoc]]
    rw [r4]
  have hren : renderFilename (s1 ++ marlinVersionPH ++ (s2 ++ currentDatePH ++
      (s3 ++ timestampPH ++ (s4 ++ uidPH ++ s5)))) ver date ts uid =
      s1 ++ ver ++ s2 ++ date ++ s3 ++ ts ++ s4 ++ uid ++ s5 ++ binExt := by
    have hnb' : ¬ (binExt.isSuffixOf
        (s1 ++ ver ++ s2 ++ date ++ s3 ++ ts ++ s4 ++ uid ++ s5) = true) := by
      rw [hnb]
      exact Bool.false_ne_true
    unfold renderFilename
    rw [hF, if_neg hnb']
  refine ⟨hren, ?_⟩
  rw [hren]
  rw [show s1 ++ ver ++ s2 ++ date ++ s3 ++ ts ++ s4 ++ uid ++ s5 ++ binExt =
      (s1 ++ ver ++ s2 ++ date ++ s3 ++ ts ++ s4 ++ uid ++ s5) ++ binExt by
    simp only [List.append_assoc]]
  rw [List.isSuffixOf_iff_suffix]
  exact List.suffix_append _ _

/-- C8 witness: the template `fw-...` with each placeholder once
renders with all placeholders substituted and `.bin` appended. -/
theorem C8_witness :
    renderFilename (str "fw-" ++ marlinVersionPH ++ (str "-" ++ currentDatePH ++
        (str "-" ++ timestampPH ++ (str "-" ++ uidPH ++ str "")))) vT
        (str "20261011") (str "175") (str "123456") =
      str "fw-" ++ vT ++ str "-" ++ str "20261011" ++ str "-" ++ str "175" ++
        str "-" ++ str "123456" ++ str "" ++ binExt ∧
    binExt.isSuffixOf (renderFilename (str "fw-" ++ marlinVersionPH ++ (str "-" ++
        currentDatePH ++ (str "-" ++ timestampPH ++ (str "-" ++ uidPH ++ str "")))) vT
        (str "20261011") (str "175") (str "123456")) = true :=
  C8_theorem (str "fw-") (str "-") (str "-") (str "-") (str "") vT
    (str "20261011") (str "175") (str "123456")
    (by decide) (by decide) (by decide) (by decide) (by decide)
    (by decide) (by decide) (by decide) (by decide) (by decide)

/-- C9: when every non-`ignore` decision's build step produces no
artifact (so the asset batch is empty), `doBuild` creates no release,
uploads nothing, and does not rewrite the tracker file. -/
theorem C9_theorem (devMode : Bool)
    (processBuild : Str → BuildSchema → Channel → Str → Option Str)
    (uploadAsset : Asset → Nat) (currentDate timestamp uid v : Str) (kind : Channel)
    (buildDefs : List (Str × Decision))
    (hnone : ∀ n d, (n, d) ∈ buildDefs → d.action ≠ Action.ignore →
      processBuild n d.build kind v = none) :
    doBuild devMode processBuild uploadAsset currentDate timestamp uid v kind buildDefs =
      { assets := [], releaseCreated := false, uploaded := [], writtenTracker := none } := by
  have hassets : mkAssets processBuild currentDate timestamp uid v kind buildDefs = [] := by
    unfold mkAssets
    rw [List.filterMap_eq_nil_iff]
    intro p hp
    by_cases hi : p.2.action = Action.ignore
    · rw [if_pos hi]
    · rw [if_neg hi, hnone p.1 p.2 hp hi]
  unfold doBuild
  rw [hassets]
  cases devMode with
  | true => rfl
  | false => rfl

/-- C9 witness: a `create` decision whose processor yields no artifact
leaves all effects empty. -/
theorem C9_witness :
    doBuild false (fun _ _ _ _ => none) (fun _ => 0) (str "20261011") (str "175")
        (str "123456") vT Channel.nightly [(str "a", decisionA)] =
      { assets := [], releaseCreated := false, uploaded := [], writtenTracker := none } :=
  C9_theorem false (fun _ _ _ _ => none) (fun _ => 0) (str "20261011") (str "175")
    (str "123456") vT Channel.nightly [(str "a", decisionA)]
    (fun _ _ _ _ => rfl)

/-- C10: the `ignore` decision recorded for a disabled build stores the
current run's `latestVersion` and current digest (not the tracked
ones), carrying the prior `assetId`; consequently, once that decision
is persisted, re-enabling the build with unchanged file content under
the same upstream version classifies it `ignore` — it is never rebuilt
at the version that arrived while it was disabled. -/
theorem C10_theorem (sv : SemverLib) (md5file : Str → Str) (v : Str) (kind : Channel)
    (tracked : List (Str × TrackedBuild)) (n : Str) (bDis bEn : BuildSchema)
    (t : TrackedBuild)
    (hdis : isDisabled bDis kind = true) (ht : lookup tracked n = some t)
    (hvOld : t.version ≠ v)
    (hen : isDisabled bEn kind = false)
    (hg : versionGate sv v kind n bEn = .ok false) :
    classifyTracked sv v kind tracked n bDis (md5file n) =
      .ok (some { version := v, md5 := md5file n, build := bDis,
                  action := Action.ignore, assetId := t.assetId }) ∧
    shouldBuild sv md5file v kind
        (some [(n, { version := v, md5 := md5file n, assetId := t.assetId })])
        [(n, bEn)] =
      .ok (true, [(n, { version := v, md5 := md5file n, build := bEn,
                        action := Action.ignore, assetId := t.assetId })]) := by
  constructor
  · exact classifyTracked_disabled_rec sv v kind tracked n bDis (md5file n) t hdis ht
  · have ht2 : lookup [(n, ({ version := v, md5 := md5file n, assetId := t.assetId } :
        TrackedBuild))] n =
        some { version := v, md5 := md5file n, assetId := t.assetId } := by
      rw [lookup_cons, if_pos rfl]
    have hstep : trackedStep sv md5file v kind
        [(n, { version := v, md5 := md5file n, assetId := t.assetId })] n bEn =
        .ok (some { version := v, md5 := md5file n, build := bEn,
                    action := Action.ignore, assetId := t.assetId }) :=
      classifyTracked_same sv v kind
        [(n, { version := v, md5 := md5file n, assetId := t.assetId })] n bEn
        (md5file n) { version := v, md5 := md5file n, assetId := t.assetId }
        hen hg ht2 rfl rfl
    have hfp : firstPass sv md5file v kind
        (some [(n, { version := v, md5 := md5file n, assetId := t.assetId })])
        [(n, bEn)] =
        ([(n, { version := v, md5 := md5file n, build := bEn,
                action := Action.ignore, assetId := t.assetId })], none) := by
      rw [firstPass_some, runLoop_cons, hstep]
      rfl
    have hsb := shouldBuild_of_firstPass_ok sv md5file v kind
      (some [(n, { version := v, md5 := md5file n, assetId := t.assetId })])
      [(n, bEn)] _ hfp
    rw [hsb]
    rfl

/-- C10 witness: build `r`, disabled with tracked version `"1.0.0"`,
gets an `ignore` decision at the new version `"2.0.0"`; after that
decision is persisted, the re-enabled `r` is classified `ignore`. -/
theorem C10_witness :
    classifyTracked svT vT Channel.nightly
        [(str "r", { version := str "1.0.0", md5 := str "aaaa", assetId := some 3 })]
        (str "r") disabledB (md5T (str "r")) =
      .ok (some { version := vT, md5 := md5T (str "r"), build := disabledB,
                  action := Action.ignore, assetId := some 3 }) ∧
    shouldBuild svT md5T vT Channel.nightly
        (some [(str "r", { version := vT, md5 := md5T (str "r"), assetId := some 3 })])
        [(str "r", activeB)] =
      .ok (true, [(str "r", { version := vT, md5 := md5T (str "r"), build := activeB,
                              action := Action.ignore, assetId := some 3 })]) :=
  C10_theorem svT md5T vT Channel.nightly
    [(str "r", { version := str "1.0.0", md5 := str "aaaa", assetId := some 3 })]
    (str "r") disabledB activeB
    { version := str "1.0.0", md5 := str "aaaa", assetId := some 3 }
    (by decide) (by decide) (by decide) (by decide) (by decide)

end MarlinAB
